import Mathlib

/-!
Verification of the DX Analytics derivatives-pricing core as described by the
repository's specification.  The repository's only source file,
`12_dx_overview.ipynb`, drives the `dx` library (market environments, risk
factor simulators, Monte Carlo valuation objects, portfolios and risk
reports); the library code itself is not part of the repository, so the
definitions below model those components from the specification, with doc
comments recording what is modelled.  Dates are counted in days, monetary
and model quantities are rationals (stand-ins for the floats of the code),
and the pseudo-random number generator is an explicit deterministic stream
derived from the seed, which is exactly the reproducibility contract the
specification demands.
-/

namespace DX

/-- Calendar dates are modelled as day counts from a fixed epoch. -/
abbrev Date := ℕ

/-- Arithmetic mean of a list of rationals; the empty list has mean 0
(division by zero in `ℚ` yields 0). -/
def mean (xs : List ℚ) : ℚ := xs.sum / xs.length

/-- Population variance of a list of rationals, the `numpy` default used by
the code's statistics. -/
def pvariance (xs : List ℚ) : ℚ :=
  (xs.map (fun x => (x - mean xs) ^ 2)).sum / xs.length

theorem pvariance_nonneg (xs : List ℚ) : 0 ≤ pvariance xs := by
  unfold pvariance
  apply div_nonneg
  · apply List.sum_nonneg
    intro a ha
    obtain ⟨x, _, rfl⟩ := List.mem_map.mp ha
    exact sq_nonneg _
  · exact_mod_cast Nat.zero_le _

/-- Truncated Taylor series for the exponential, the computable stand-in for
the floating point `exp` used by the discounting and lognormal step
formulas. -/
def expTaylor (x : ℚ) : ℚ := ∑ k ∈ Finset.range 8, x ^ k / (Nat.factorial k)

/-- Computable rational square-root approximation, the stand-in for the
floating point `sqrt` of the simulators. -/
def sqrtQ (x : ℚ) : ℚ :=
  if x ≤ 0 then 0
  else (Nat.sqrt (x.num.toNat * x.den * 10 ^ 12) : ℚ) / ((x.den : ℚ) * 10 ^ 6)

/-- Linear congruential generator underlying the deterministic random
stream: the model of `numpy`'s seeded generator state transition. -/
def lcg (n : ℕ) : ℕ := (1103515245 * n + 12345) % 2 ^ 31

/-- The i-th raw state of the deterministic random stream started from a
seed. -/
def rand_nat (seed : ℕ) : ℕ → ℕ
  | 0 => lcg seed
  | i + 1 => lcg (rand_nat seed i)

/-- Modelled from the spec: the seeded standard-normal draw stream of the
random number engine (`np.random.seed` + `standard_normal` in the code,
which is absent from the repository).  The draw is a deterministic rational
in [-3, 3] computed from the seed and the draw index; only determinism and
seeding structure matter for the claims, not the distribution. -/
def standard_normal_draw (seed i : ℕ) : ℚ :=
  ((rand_nat seed i % 601 : ℕ) : ℚ) / 100 - 3

/-- Modelled from the spec: the `dx.market_environment` ParameterSet (absent
from the repository; the notebook only instantiates it).  A named,
timestamped mapping from string keys to scalar constants; lookups see the
most recently written binding (last-write-wins). -/
structure market_environment where
  name : String
  pricing_date : Date
  constants : List (String × ℚ)

/-- Modelled from the spec: `market_environment.add_constant` writes a
scalar constant; the new binding shadows any earlier binding of the key. -/
def add_constant (e : market_environment) (k : String) (v : ℚ) :
    market_environment :=
  { e with constants := (k, v) :: e.constants }

/-- Modelled from the spec: `market_environment.get_constant` resolves a
key to its most recently written value. -/
def get_constant (e : market_environment) (k : String) : Option ℚ :=
  (e.constants.find? (fun p => p.1 == k)).map (fun p => p.2)

/-- Modelled from the spec: `market_environment.add_environment` merges
another ParameterSet by copying all of its entries into this one; the
imported entries override pre-existing ones, and explicit sets performed
after the merge override the imported entries. -/
def add_environment (e src : market_environment) : market_environment :=
  { e with constants := src.constants ++ e.constants }

/-- A store of named market environments: the explicit-state model of the
notebook's mutable environment objects (`me_1`, `me_2`, ...), needed to
express that merging copies values rather than holding live references. -/
abbrev EnvStore := List (String × market_environment)

/-- Look an environment up in the store by name. -/
def store_get (s : EnvStore) (n : String) : Option market_environment :=
  (s.find? (fun p => p.1 == n)).map (fun p => p.2)

/-- Apply an in-place mutation to the named environment of the store. -/
def store_update (s : EnvStore) (n : String)
    (f : market_environment → market_environment) : EnvStore :=
  s.map (fun p => if p.1 == n then (p.1, f p.2) else p)

/-- Modelled from the spec: the statement `dst.add_environment(src)` acting
on the store of environment objects — the destination receives a value copy
of the source's entries. -/
def store_add_environment (s : EnvStore) (dst src : String) : EnvStore :=
  match store_get s src with
  | none => s
  | some b => store_update s dst (fun a => add_environment a b)

/-- Modelled from the spec: the statement `n.add_constant(k, v)` acting on
the store of environment objects. -/
def store_add_constant (s : EnvStore) (n k : String) (v : ℚ) : EnvStore :=
  store_update s n (fun e => add_constant e k v)

/-- Frequency tags of the time grid builder. -/
inductive frequency_tag where
  | daily
  | weekly
  | monthly

/-- Step width in days of a frequency tag. -/
def frequency_tag.days : frequency_tag → ℕ
  | .daily => 1
  | .weekly => 7
  | .monthly => 30

/-- Regularly spaced instants from the pricing date up to the final date at
the given step width. -/
def regular_instants (p f : Date) (step : ℕ) : List Date :=
  (List.range ((f - p) / step + 1)).map (fun i => p + i * step)

/-- Insert a date into a strictly sorted list of dates, keeping it strictly
sorted and dropping the insertion when the date is already present. -/
def insort (x : Date) : List Date → List Date
  | [] => [x]
  | y :: ys =>
    if x < y then x :: y :: ys
    else if x = y then y :: ys
    else y :: insort x ys

/-- Sort a list of dates strictly increasingly, removing duplicates. -/
def dedup_sort (l : List Date) : List Date := l.foldr insort []

theorem mem_insort (a x : Date) (l : List Date) :
    a ∈ insort x l ↔ a = x ∨ a ∈ l := by
  induction l with
  | nil => simp [insort]
  | cons y ys ih =>
    unfold insort
    by_cases h1 : x < y
    · simp [h1]
    · by_cases h2 : x = y
      · subst h2
        simp [h1]
      · simp [h1, h2, ih]
        tauto

theorem sorted_insort (x : Date) (l : List Date)
    (h : List.Sorted (· < ·) l) :
    List.Sorted (· < ·) (insort x l) := by
  induction l with
  | nil => simp [insort]
  | cons y ys ih =>
    rw [List.sorted_cons] at h
    obtain ⟨hy, hs⟩ := h
    unfold insort
    by_cases h1 : x < y
    · rw [if_pos h1, List.sorted_cons]
      refine ⟨?_, List.sorted_cons.mpr ⟨hy, hs⟩⟩
      intro b hb
      rcases List.mem_cons.mp hb with rfl | hb2
      · exact h1
      · exact h1.trans (hy b hb2)
    · by_cases h2 : x = y
      · rw [if_neg h1, if_pos h2]
        exact List.sorted_cons.mpr ⟨hy, hs⟩
      · rw [if_neg h1, if_neg h2, List.sorted_cons]
        refine ⟨?_, ih hs⟩
        intro b hb
        rcases (mem_insort b x ys).mp hb with rfl | hb2
        · exact Nat.lt_of_le_of_ne (Nat.not_lt.mp h1) (fun hc => h2 hc.symm)
        · exact hy b hb2

theorem mem_dedup_sort (a : Date) (l : List Date) :
    a ∈ dedup_sort l ↔ a ∈ l := by
  induction l with
  | nil => simp [dedup_sort]
  | cons x xs ih =>
    show a ∈ insort x (dedup_sort xs) ↔ _
    rw [mem_insort, ih, List.mem_cons]

theorem sorted_dedup_sort (l : List Date) :
    List.Sorted (· < ·) (dedup_sort l) := by
  induction l with
  | nil => simp [dedup_sort]
  | cons x xs ih => exact sorted_insort x _ ih

/-- Modelled from the spec: the successful result of the time grid builder —
the regular instants, the pricing date, the final date and all injected
extra dates, deduplicated and sorted strictly increasingly. -/
def grid_list (p f : Date) (step : ℕ) (extra : List Date) : List Date :=
  dedup_sort (regular_instants p f step ++ p :: f :: extra)

/-- Modelled from the spec: the time grid builder (`generate_time_grid` of
the `dx` library, absent from the repository).  Fails with a configuration
error when the final date does not lie strictly after the pricing date;
otherwise produces the deduplicated, strictly increasing grid. -/
def generate_time_grid (p f : Date) (freq : frequency_tag)
    (extra : List Date) : Except String (List Date) :=
  if f ≤ p then Except.error "final date must lie after the pricing date"
  else Except.ok (grid_list p f freq.days extra)

/-- Modelled from the spec: the `dx.geometric_brownian_motion` risk factor
model (absent from the repository).  Carries the parameters drawn from its
market environment, the seed of the random engine, and the memoized path
tensor, which is `none` until first access and invalidated on parameter
mutation. -/
structure gbm_model where
  name : String
  initial_value : ℚ
  volatility : ℚ
  short_rate : ℚ
  pricing_date : Date
  final_date : Date
  frequency : ℕ
  paths : ℕ
  seed : ℕ
  instrument_values : Option (List (List ℚ))

/-- Time grid of a geometric Brownian motion risk factor: built from its
pricing date, final date and frequency with no extra dates. -/
def gbm_time_grid (m : gbm_model) : List Date :=
  grid_list m.pricing_date m.final_date m.frequency []

/-- Modelled from the spec: the exact lognormal step transition of
geometric Brownian motion, with the computable stand-ins for `exp` and
`sqrt`. -/
def gbm_step (m : gbm_model) (dt z s : ℚ) : ℚ :=
  s * expTaylor ((m.short_rate - m.volatility ^ 2 / 2) * dt +
    m.volatility * sqrtQ dt * z)

/-- The row of standard-normal draws consumed by time step `t` of a
simulation with the given path count. -/
def draw_row (seed t npaths : ℕ) : List ℚ :=
  (List.range npaths).map (fun j => standard_normal_draw seed (t * npaths + j))

/-- Successive rows of the geometric Brownian motion path tensor after the
initial row: each row advances every path by one lognormal step over the
year fraction separating consecutive grid dates. -/
def gbm_rows (m : gbm_model) : Date → List ℚ → ℕ → List Date → List (List ℚ)
  | _, _, _, [] => []
  | prev, row, t, d :: ds =>
    let dt : ℚ := ((d - prev : ℕ) : ℚ) / 365
    let next := List.zipWith (fun s z => gbm_step m dt z s) row
      (draw_row m.seed t m.paths)
    next :: gbm_rows m d next (t + 1) ds

/-- Modelled from the spec: `generate_paths` of the geometric Brownian
motion simulator — the deterministic path tensor, one row per time grid
instant, one column per Monte Carlo path; the first row holds the starting
value on every path. -/
def generate_paths (m : gbm_model) : List (List ℚ) :=
  match gbm_time_grid m with
  | [] => []
  | d :: ds =>
    List.replicate m.paths m.initial_value ::
      gbm_rows m d (List.replicate m.paths m.initial_value) 1 ds

/-- The path tensor currently visible on a risk factor: the memoized tensor
when present, else the one the simulation would produce. -/
def instrument_values_of (m : gbm_model) : List (List ℚ) :=
  match m.instrument_values with
  | some t => t
  | none => generate_paths m

/-- Modelled from the spec: `get_instrument_values` — lazily generates the
path tensor on first access and memoizes it, returning the tensor together
with the risk factor holding the filled cache. -/
def get_instrument_values (m : gbm_model) : List (List ℚ) × gbm_model :=
  (instrument_values_of m, { m with instrument_values := some (instrument_values_of m) })

/-- Modelled from the spec: mutating the starting value invalidates the
memoized path tensor. -/
def set_initial_value (m : gbm_model) (x : ℚ) : gbm_model :=
  { m with initial_value := x, instrument_values := none }

/-- Modelled from the spec: mutating the volatility invalidates the
memoized path tensor. -/
def set_volatility (m : gbm_model) (x : ℚ) : gbm_model :=
  { m with volatility := x, instrument_values := none }

/-- Modelled from the spec: mutating the pricing date (the theta bump)
invalidates the memoized path tensor and re-simulates. -/
def set_pricing_date (m : gbm_model) (d : Date) : gbm_model :=
  { m with pricing_date := d, instrument_values := none }

/-- Modelled from the spec: mutating the constant short rate of the
discount curve (the rho bump) invalidates the memoized path tensor. -/
def set_short_rate (m : gbm_model) (r : ℚ) : gbm_model :=
  { m with short_rate := r, instrument_values := none }

/-- The parameter state of a risk factor: every field except the memoized
path cache. -/
def gbm_params (m : gbm_model) :
    String × ℚ × ℚ × ℚ × Date × Date × ℕ × ℕ × ℕ :=
  (m.name, m.initial_value, m.volatility, m.short_rate, m.pricing_date,
    m.final_date, m.frequency, m.paths, m.seed)

/-- Modelled from the spec: the `dx.square_root_diffusion` risk factor
model (absent from the repository), with mean-reversion speed `kappa`,
long-run mean `theta` and volatility. -/
structure square_root_diffusion where
  name : String
  initial_value : ℚ
  kappa : ℚ
  theta : ℚ
  volatility : ℚ
  pricing_date : Date
  final_date : Date
  frequency : ℕ
  paths : ℕ
  seed : ℕ

/-- Time grid of a square-root diffusion risk factor. -/
def srd_time_grid (m : square_root_diffusion) : List Date :=
  grid_list m.pricing_date m.final_date m.frequency []

/-- Modelled from the spec: one full-truncation Euler step of the
square-root diffusion — drift and diffusion coefficients read the process
floored at zero, so negative excursions of the raw process never feed a
negative value into the square root. -/
def srd_step (m : square_root_diffusion) (dt z xh : ℚ) : ℚ :=
  xh + m.kappa * (m.theta - max 0 xh) * dt +
    m.volatility * sqrtQ (max 0 xh) * sqrtQ dt * z

/-- Successive rows of the square-root diffusion tensor after the initial
row: the raw process is advanced by full-truncation Euler steps and each
reported row is the raw row floored at zero. -/
def srd_rows (m : square_root_diffusion) :
    Date → List ℚ → ℕ → List Date → List (List ℚ)
  | _, _, _, [] => []
  | prev, raw, t, d :: ds =>
    let dt : ℚ := ((d - prev : ℕ) : ℚ) / 365
    let nextRaw := List.zipWith (fun xh z => srd_step m dt z xh) raw
      (draw_row m.seed t m.paths)
    nextRaw.map (fun x => max 0 x) :: srd_rows m d nextRaw (t + 1) ds

/-- Modelled from the spec: the square-root diffusion path tensor; the
first row holds the starting value on every path and every later row is
floored at zero by the full-truncation scheme. -/
def srd_instrument_values (m : square_root_diffusion) : List (List ℚ) :=
  match srd_time_grid m with
  | [] => []
  | d :: ds =>
    List.replicate m.paths m.initial_value ::
      srd_rows m d (List.replicate m.paths m.initial_value) 1 ds

/-- Modelled from the spec: the `dx.valuation_mcs_european_single`
valuation object (absent from the repository): an underlying risk factor,
a strike, a maturity and a payoff function of strike and maturity value. -/
structure valuation_mcs_european_single where
  name : String
  underlying : gbm_model
  strike : ℚ
  maturity : Date
  payoff_func : ℚ → ℚ → ℚ

namespace valuation_mcs_european_single

/-- Modelled from the spec: the valuation object's `update` method — each
supplied argument replaces the corresponding parameter; changing the
underlying's starting value or volatility goes through the risk factor and
invalidates its memoized paths, while strike and maturity live on the
valuation object alone and leave the underlying untouched. -/
def update (v : valuation_mcs_european_single) (initial_value : Option ℚ)
    (volatility : Option ℚ) (strike : Option ℚ) (maturity : Option Date) :
    valuation_mcs_european_single :=
  let v1 := match initial_value with
    | none => v
    | some x => { v with underlying := set_initial_value v.underlying x }
  let v2 := match volatility with
    | none => v1
    | some x => { v1 with underlying := set_volatility v1.underlying x }
  let v3 := match strike with
    | none => v2
    | some k => { v2 with strike := k }
  match maturity with
  | none => v3
  | some d => { v3 with maturity := d }

/-- Time to maturity of the valuation as a year fraction. -/
def ttm (v : valuation_mcs_european_single) : ℚ :=
  ((v.maturity - v.underlying.pricing_date : ℕ) : ℚ) / 365

/-- Modelled from the spec: the risk-neutral discount factor of the
constant short rate model over a year fraction `t`. -/
def discount_factor (r t : ℚ) : ℚ := expTaylor (-(r * t))

/-- The terminal simulated values of the underlying, one per Monte Carlo
path: the last row of the currently visible path tensor. -/
def maturity_value_list (v : valuation_mcs_european_single) : List ℚ :=
  ((instrument_values_of v.underlying).getLast?).getD []

/-- The discounted per-path payoffs of the European valuation. -/
def discounted_payoff_list (v : valuation_mcs_european_single) : List ℚ :=
  (maturity_value_list v).map
    (fun s => discount_factor v.underlying.short_rate (ttm v) *
      v.payoff_func v.strike s)

/-- Modelled from the spec: `present_value` of the European Monte Carlo
estimator — the mean of the discounted per-path payoffs. -/
def present_value (v : valuation_mcs_european_single) : ℚ :=
  mean (discounted_payoff_list v)

/-- Modelled from the spec: the squared standard error accompanying the
present value estimate — the variance of the discounted per-path payoffs
divided by the path count. -/
def standard_error_sq (v : valuation_mcs_european_single) : ℚ :=
  pvariance (discounted_payoff_list v) / (discounted_payoff_list v).length

/-- The parameter state of a valuation object: its own parameters plus the
underlying's parameter state (the memoized path cache excluded). -/
def val_params (v : valuation_mcs_european_single) :
    String × (String × ℚ × ℚ × ℚ × Date × Date × ℕ × ℕ × ℕ) × ℚ × Date :=
  (v.name, gbm_params v.underlying, v.strike, v.maturity)

/-- Modelled from the spec: the delta estimator — bump the underlying's
starting value down and up by the step with the same random draws, take the
central difference, and restore the original starting value. -/
def delta (v : valuation_mcs_european_single) (step : ℚ) :
    ℚ × valuation_mcs_european_single :=
  let s0 := v.underlying.initial_value
  let vd := update v (some (s0 - step)) none none none
  let pd := present_value vd
  let vu := update vd (some (s0 + step)) none none none
  let pu := present_value vu
  let vr := update vu (some s0) none none none
  ((pu - pd) / (2 * step), vr)

/-- Modelled from the spec: the gamma estimator — second central difference
in the underlying's starting value, restoring the original value
afterwards. -/
def gamma (v : valuation_mcs_european_single) (step : ℚ) :
    ℚ × valuation_mcs_european_single :=
  let s0 := v.underlying.initial_value
  let vu := update v (some (s0 + step)) none none none
  let pu := present_value vu
  let vd := update vu (some (s0 - step)) none none none
  let pd := present_value vd
  let vr := update vd (some s0) none none none
  let p0 := present_value vr
  ((pu - 2 * p0 + pd) / step ^ 2, vr)

/-- Modelled from the spec: the vega estimator — central difference in the
underlying's volatility, restoring the original volatility afterwards. -/
def vega (v : valuation_mcs_european_single) (step : ℚ) :
    ℚ × valuation_mcs_european_single :=
  let h0 := v.underlying.volatility
  let vd := update v none (some (h0 - step)) none none
  let pd := present_value vd
  let vu := update vd none (some (h0 + step)) none none
  let pu := present_value vu
  let vr := update vu none (some h0) none none
  ((pu - pd) / (2 * step), vr)

/-- Modelled from the spec: the theta estimator — bump the pricing date
forward by one day, re-simulate, take the one-sided difference over the one
day year fraction, and restore the original pricing date. -/
def theta (v : valuation_mcs_european_single) :
    ℚ × valuation_mcs_european_single :=
  let d0 := v.underlying.pricing_date
  let p0 := present_value v
  let vf := { v with underlying := set_pricing_date v.underlying (d0 + 1) }
  let pf := present_value vf
  let vr := { vf with underlying := set_pricing_date vf.underlying d0 }
  ((pf - p0) / (1 / 365), vr)

/-- Modelled from the spec: the rho estimator — central difference in the
discount rate, restoring the original rate afterwards. -/
def rho (v : valuation_mcs_european_single) (step : ℚ) :
    ℚ × valuation_mcs_european_single :=
  let r0 := v.underlying.short_rate
  let vd := { v with underlying := set_short_rate v.underlying (r0 - step) }
  let pd := present_value vd
  let vu := { vd with underlying := set_short_rate vd.underlying (r0 + step) }
  let pu := present_value vu
  let vr := { vu with underlying := set_short_rate vu.underlying r0 }
  ((pu - pd) / (2 * step), vr)

end valuation_mcs_european_single

export valuation_mcs_european_single (present_value standard_error_sq)

/-- Modelled from the spec: a `dx.derivatives_position` (absent from the
repository): a quantity, the name of the underlying risk factor, and the
option terms with the payoff function. -/
structure derivatives_position where
  name : String
  quantity : ℚ
  underlying : String
  strike : ℚ
  maturity : Date
  payoff_func : ℚ → ℚ → ℚ

/-- Modelled from the spec: a `dx.derivatives_portfolio` (absent from the
repository) restricted to what the claims exercise: named positions and the
named risk factor models they reference. -/
structure portfolio_model where
  name : String
  positions : List derivatives_position
  risk_factors : List (String × gbm_model)

/-- The valuation object a position induces on its resolved risk factor. -/
def position_valuation (m : gbm_model) (p : derivatives_position) :
    valuation_mcs_european_single :=
  { name := p.name, underlying := m, strike := p.strike,
    maturity := p.maturity, payoff_func := p.payoff_func }

/-- Present value of one position's option on the portfolio's risk
factors; a position whose underlying is not among the risk factors
contributes zero. -/
def position_value (rf : List (String × gbm_model))
    (p : derivatives_position) : ℚ :=
  match (rf.find? (fun q => q.1 == p.underlying)).map (fun q => q.2) with
  | none => 0
  | some m => present_value (position_valuation m p)

/-- Squared standard error of one position's option. -/
def position_error_sq (rf : List (String × gbm_model))
    (p : derivatives_position) : ℚ :=
  match (rf.find? (fun q => q.1 == p.underlying)).map (fun q => q.2) with
  | none => 0
  | some m => standard_error_sq (position_valuation m p)

/-- Modelled from the spec: `get_values` — one row per position with its
name, quantity and present value. -/
def get_values (port : portfolio_model) : List (String × ℚ × ℚ) :=
  port.positions.map
    (fun p => (p.name, p.quantity, position_value port.risk_factors p))

/-- Modelled from the spec: the portfolio present value — the
quantity-weighted sum over the rows of `get_values`. -/
def portfolio_value (port : portfolio_model) : ℚ :=
  ((get_values port).map (fun r => r.2.1 * r.2.2)).sum

/-- Modelled from the spec: `get_statistics` — per-position rows carrying
name, quantity, present value (the Monte Carlo mean) and squared standard
error, together with the aggregate pair of portfolio present value and
summed quantity-weighted squared error. -/
def get_statistics (port : portfolio_model) :
    List (String × ℚ × ℚ × ℚ) × (ℚ × ℚ) :=
  (port.positions.map (fun p =>
      (p.name, p.quantity, position_value port.risk_factors p,
        position_error_sq port.risk_factors p)),
    (portfolio_value port,
      (port.positions.map (fun p =>
        p.quantity ^ 2 * position_error_sq port.risk_factors p)).sum))

/-- The shockable target parameters of the risk report. -/
inductive shock_param where
  | initial_value
  | volatility

/-- Read the shocked parameter off a risk factor. -/
def get_shock (m : gbm_model) : shock_param → ℚ
  | .initial_value => m.initial_value
  | .volatility => m.volatility

/-- Write the shocked parameter into a risk factor, invalidating its
memoized paths. -/
def set_shock (m : gbm_model) : shock_param → ℚ → gbm_model
  | .initial_value, x => set_initial_value m x
  | .volatility, x => set_volatility m x

/-- Shock one named risk factor of the portfolio to an absolute parameter
value; every other field of every risk factor, in particular every seed, is
untouched. -/
def shock_factor (port : portfolio_model) (fname : String)
    (t : shock_param) (x : ℚ) : portfolio_model :=
  { port with risk_factors := (port.risk_factors.map
      (fun q => if q.1 == fname then (q.1, set_shock q.2 t x) else q)) }

/-- The unshocked value of the target parameter on the named risk factor
(zero when the name resolves to nothing, in which case the shock is a
no-op). -/
def shock_base (port : portfolio_model) (fname : String)
    (t : shock_param) : ℚ :=
  match (port.risk_factors.find? (fun q => q.1 == fname)).map (fun q => q.2)
  with
  | none => 0
  | some m => get_shock m t

/-- The scenario table entry of one full portfolio revaluation: the
per-position rows of `get_values` and the aggregate portfolio value. -/
def port_scenario_values (port : portfolio_model) :
    List (String × ℚ × ℚ) × ℚ :=
  (get_values port, portfolio_value port)

/-- Modelled from the spec: `get_port_risk` — revalue the whole portfolio
with the target parameter at its unshocked value minus the step, at the
unshocked value, and at the unshocked value plus the step, and return the
three scenario rows together with the unshocked benchmark value.  The
random seeds live on the risk factor models and are never touched by the
shocks, so all three valuations use the same draws. -/
def get_port_risk (port : portfolio_model) (fname : String)
    (t : shock_param) (step : ℚ) :
    List (ℚ × (List (String × ℚ × ℚ) × ℚ)) × ℚ :=
  let b := shock_base port fname t
  (([b - step, b, b + step]).map
      (fun x => (x, port_scenario_values (shock_factor port fname t x))),
    portfolio_value port)

/-- The seeds of the portfolio's risk factors, by name. -/
def portfolio_seeds (port : portfolio_model) : List (String × ℕ) :=
  port.risk_factors.map (fun q => (q.1, q.2.seed))

/-! ## Helper lemmas -/

theorem find?_append_of_some {α : Type} (p : α → Bool) (l1 l2 : List α)
    (x : α) (h : l1.find? p = some x) : (l1 ++ l2).find? p = some x := by
  induction l1 with
  | nil => simp [List.find?] at h
  | cons a l ih =>
    rw [List.cons_append]
    rw [List.find?_cons] at h ⊢
    cases hp : p a with
    | true => simpa [hp] using h
    | false =>
      rw [hp] at h
      simpa [hp] using ih h

theorem store_get_update_ne (s : EnvStore) (n d : String)
    (f : market_environment → market_environment) (h : n ≠ d) :
    store_get (store_update s n f) d = store_get s d := by
  induction s with
  | nil => rfl
  | cons q s ih =>
    unfold store_update store_get at ih ⊢
    rw [List.map_cons]
    by_cases hd : q.1 = d
    · have hqn : (q.1 == n) = false := by
        apply beq_eq_false_iff_ne.mpr
        rw [hd]
        exact fun hc => h hc.symm
      rw [if_neg (by simp [hqn])]
      rw [List.find?_cons_of_pos _ (by simp [hd]),
        List.find?_cons_of_pos _ (by simp [hd])]
    · by_cases hn : q.1 = n
      · rw [if_pos (by simp [hn])]
        rw [List.find?_cons_of_neg _ (by simpa using hd),
          List.find?_cons_of_neg _ (by simpa using hd)]
        exact ih
      · rw [if_neg (by simp [hn])]
        rw [List.find?_cons_of_neg _ (by simpa using hd),
          List.find?_cons_of_neg _ (by simpa using hd)]
        exact ih

/-- C4: merging ParameterSet B into A copies every entry of B by value with
last-write-wins override order (an explicit set after the merge overrides
the merged entry), and mutating B after the merge leaves the merged copies
in A unchanged. -/
theorem add_environment_value_copy :
    (∀ (a b : market_environment) (key : String) (w : ℚ),
      get_constant b key = some w →
      get_constant (add_environment a b) key = some w) ∧
    (∀ (a b : market_environment) (key : String) (w : ℚ),
      get_constant (add_constant (add_environment a b) key w) key = some w) ∧
    (∀ (s : EnvStore) (dst src k : String) (v : ℚ), dst ≠ src →
      store_get (store_add_constant (store_add_environment s dst src) src k v)
          dst =
        store_get (store_add_environment s dst src) dst) := by
  refine ⟨?_, ?_, ?_⟩
  · intro a b key w h
    simp only [get_constant] at h ⊢
    simp only [add_environment]
    obtain ⟨q, hq, hq2⟩ := Option.map_eq_some'.mp h
    exact Option.map_eq_some'.mpr ⟨q, find?_append_of_some _ _ _ _ hq, hq2⟩
  · intro a b key w
    unfold get_constant add_constant
    simp [List.find?_cons]
  · intro s dst src k v h
    unfold store_add_constant
    exact store_get_update_ne _ _ _ _ (fun hc => h hc.symm)

/-- Concrete instantiation of the ParameterSet merge properties. -/
theorem add_environment_value_copy_witness :
    (get_constant ⟨"B", 0, [("volatility", 2)]⟩ "volatility" = some 2 ∧
      get_constant
        (add_environment ⟨"A", 0, [("volatility", 5)]⟩
          ⟨"B", 0, [("volatility", 2)]⟩) "volatility" = some 2) ∧
    get_constant
      (add_constant
        (add_environment ⟨"A", 0, [("volatility", 5)]⟩
          ⟨"B", 0, [("volatility", 2)]⟩) "volatility" 3) "volatility" =
      some 3 ∧
    ("A" : String) ≠ "B" ∧
    store_get
      (store_add_constant
        (store_add_environment
          [("A", ⟨"A", 0, [("volatility", 5)]⟩),
            ("B", ⟨"B", 0, [("volatility", 2)]⟩)] "A" "B") "B" "strike" 100)
      "A" =
      store_get
        (store_add_environment
          [("A", ⟨"A", 0, [("volatility", 5)]⟩),
            ("B", ⟨"B", 0, [("volatility", 2)]⟩)] "A" "B") "A" := by
  refine ⟨⟨by rfl, add_environment_value_copy.1 _ _ _ _ (by rfl)⟩,
    add_environment_value_copy.2.1 _ ⟨"B", 0, [("volatility", 2)]⟩ _ _,
    by decide,
    add_environment_value_copy.2.2 _ "A" "B" "strike" 100 (by decide)⟩

/-- C7: the time grid builder fails with a configuration error when the
final date is not strictly after the pricing date, and otherwise returns a
strictly increasing, deduplicated sequence containing the pricing date, the
final date and every injected extra date. -/
theorem generate_time_grid_spec (p f : Date) (freq : frequency_tag)
    (extra : List Date) :
    (f ≤ p → generate_time_grid p f freq extra =
      Except.error "final date must lie after the pricing date") ∧
    (p < f →
      generate_time_grid p f freq extra =
          Except.ok (grid_list p f freq.days extra) ∧
        List.Sorted (· < ·) (grid_list p f freq.days extra) ∧
        p ∈ grid_list p f freq.days extra ∧
        f ∈ grid_list p f freq.days extra ∧
        ∀ d ∈ extra, d ∈ grid_list p f freq.days extra) := by
  constructor
  · intro h
    simp [generate_time_grid, h]
  · intro h
    refine ⟨by simp [generate_time_grid, Nat.not_le.mpr h], ?_, ?_, ?_, ?_⟩
    · exact sorted_dedup_sort _
    · simp [grid_list, mem_dedup_sort]
    · simp [grid_list, mem_dedup_sort]
    · intro d hd
      simp [grid_list, mem_dedup_sort, hd]

/-- Concrete instantiation of the time grid builder properties. -/
theorem generate_time_grid_spec_witness :
    ((7 : Date) ≤ 7 ∧
      generate_time_grid 7 7 frequency_tag.daily [] =
        Except.error "final date must lie after the pricing date") ∧
    (0 : Date) < 7 ∧
    (generate_time_grid 0 7 frequency_tag.weekly [3] =
        Except.ok (grid_list 0 7 frequency_tag.weekly.days [3]) ∧
      List.Sorted (· < ·) (grid_list 0 7 frequency_tag.weekly.days [3]) ∧
      0 ∈ grid_list 0 7 frequency_tag.weekly.days [3] ∧
      7 ∈ grid_list 0 7 frequency_tag.weekly.days [3] ∧
      ∀ d ∈ [3], d ∈ grid_list 0 7 frequency_tag.weekly.days [3]) :=
  ⟨⟨by decide, (generate_time_grid_spec 7 7 frequency_tag.daily []).1
      (by decide)⟩,
    by decide,
    (generate_time_grid_spec 0 7 frequency_tag.weekly [3]).2 (by decide)⟩

theorem draw_row_length (seed t n : ℕ) : (draw_row seed t n).length = n := by
  simp [draw_row]

theorem gbm_rows_shape (m : gbm_model) (ds : List Date) :
    ∀ (prev : Date) (row : List ℚ) (t : ℕ), row.length = m.paths →
      (gbm_rows m prev row t ds).length = ds.length ∧
        ∀ r ∈ gbm_rows m prev row t ds, r.length = m.paths := by
  induction ds with
  | nil => intro prev row t _; exact ⟨rfl, by intro r hr; cases hr⟩
  | cons d ds ih =>
    intro prev row t hrow
    have hnext : (List.zipWith
        (fun s z => gbm_step m (((d - prev : ℕ) : ℚ) / 365) z s) row
        (draw_row m.seed t m.paths)).length = m.paths := by
      rw [List.length_zipWith, draw_row_length, hrow, Nat.min_self]
    obtain ⟨h1, h2⟩ := ih d _ (t + 1) hnext
    refine ⟨?_, ?_⟩
    · simpa [gbm_rows] using h1
    · intro r hr
      rw [gbm_rows] at hr
      rcases List.mem_cons.mp hr with rfl | hr2
      · exact hnext
      · exact h2 r hr2

theorem srd_rows_shape (m : square_root_diffusion) (ds : List Date) :
    ∀ (prev : Date) (raw : List ℚ) (t : ℕ), raw.length = m.paths →
      (srd_rows m prev raw t ds).length = ds.length ∧
        ∀ r ∈ srd_rows m prev raw t ds, r.length = m.paths := by
  induction ds with
  | nil => intro prev raw t _; exact ⟨rfl, by intro r hr; cases hr⟩
  | cons d ds ih =>
    intro prev raw t hraw
    have hnext : (List.zipWith
        (fun xh z => srd_step m (((d - prev : ℕ) : ℚ) / 365) z xh) raw
        (draw_row m.seed t m.paths)).length = m.paths := by
      rw [List.length_zipWith, draw_row_length, hraw, Nat.min_self]
    obtain ⟨h1, h2⟩ := ih d _ (t + 1) hnext
    refine ⟨?_, ?_⟩
    · simpa [srd_rows] using h1
    · intro r hr
      rw [srd_rows] at hr
      rcases List.mem_cons.mp hr with rfl | hr2
      · rw [List.length_map]; exact hnext
      · exact h2 r hr2

/-- C8: every simulator's path tensor has one row per time grid instant and
one column per Monte Carlo path: its first axis is indexed by the time
grid and its second axis by the paths. -/
theorem gbm_path_tensor_shape (m : gbm_model) :
    ((generate_paths m).length = (gbm_time_grid m).length ∧
      ∀ row ∈ generate_paths m, row.length = m.paths) ∧
      ∀ m2 : square_root_diffusion,
        (srd_instrument_values m2).length = (srd_time_grid m2).length ∧
          ∀ row ∈ srd_instrument_values m2, row.length = m2.paths := by
  constructor
  · unfold generate_paths
    cases h : gbm_time_grid m with
    | nil => exact ⟨rfl, by intro r hr; cases hr⟩
    | cons d ds =>
      have hrep : (List.replicate m.paths m.initial_value).length = m.paths :=
        List.length_replicate _ _
      obtain ⟨h1, h2⟩ := gbm_rows_shape m ds d _ 1 hrep
      refine ⟨by simp [h1], ?_⟩
      intro row hrow
      rcases List.mem_cons.mp hrow with rfl | hr
      · exact hrep
      · exact h2 row hr
  · intro m2
    unfold srd_instrument_values
    cases h : srd_time_grid m2 with
    | nil => exact ⟨rfl, by intro r hr; cases hr⟩
    | cons d ds =>
      have hrep : (List.replicate m2.paths m2.initial_value).length =
          m2.paths := List.length_replicate _ _
      obtain ⟨h1, h2⟩ := srd_rows_shape m2 ds d _ 1 hrep
      refine ⟨by simp [h1], ?_⟩
      intro row hrow
      rcases List.mem_cons.mp hrow with rfl | hr
      · exact hrep
      · exact h2 row hr

/-- Concrete instantiation of the path tensor shape property. -/
theorem gbm_path_tensor_shape_witness :
    ((generate_paths ⟨"gbm_1", 100, 2, 1, 0, 14, 7, 3, 1000, none⟩).length =
        (gbm_time_grid ⟨"gbm_1", 100, 2, 1, 0, 14, 7, 3, 1000, none⟩).length ∧
      ∀ row ∈ generate_paths ⟨"gbm_1", 100, 2, 1, 0, 14, 7, 3, 1000, none⟩,
        row.length = (⟨"gbm_1", 100, 2, 1, 0, 14, 7, 3, 1000, none⟩ :
          gbm_model).paths) ∧
      ∀ m2 : square_root_diffusion,
        (srd_instrument_values m2).length = (srd_time_grid m2).length ∧
          ∀ row ∈ srd_instrument_values m2, row.length = m2.paths :=
  gbm_path_tensor_shape ⟨"gbm_1", 100, 2, 1, 0, 14, 7, 3, 1000, none⟩

theorem srd_rows_nonneg (m : square_root_diffusion) (ds : List Date) :
    ∀ (prev : Date) (raw : List ℚ) (t : ℕ),
      ∀ row ∈ srd_rows m prev raw t ds, ∀ x ∈ row, 0 ≤ x := by
  induction ds with
  | nil => intro prev raw t row hrow; cases hrow
  | cons d ds ih =>
    intro prev raw t row hrow
    rw [srd_rows] at hrow
    rcases List.mem_cons.mp hrow with rfl | hr
    · intro x hx
      obtain ⟨y, _, rfl⟩ := List.mem_map.mp hx
      exact le_max_left 0 y
    · exact ih d _ (t + 1) row hr

/-- C9: for every parameter combination of the square-root diffusion and a
non-negative starting value, every simulated path value at every time index
is non-negative: the full-truncation scheme floors the reported process at
zero. -/
theorem srd_paths_nonneg (m : square_root_diffusion)
    (h0 : 0 ≤ m.initial_value) :
    ∀ row ∈ srd_instrument_values m, ∀ x ∈ row, 0 ≤ x := by
  unfold srd_instrument_values
  cases h : srd_time_grid m with
  | nil => intro row hrow; cases hrow
  | cons d ds =>
    intro row hrow
    rcases List.mem_cons.mp hrow with rfl | hr
    · intro x hx
      rw [List.eq_of_mem_replicate hx]
      exact h0
    · exact srd_rows_nonneg m ds d _ 1 row hr

/-- Concrete instantiation of the square-root diffusion boundary
property. -/
theorem srd_paths_nonneg_witness :
    (0 : ℚ) ≤
        (⟨"vstoxx", 1, 3, 2, 5, 0, 14, 7, 2, 7⟩ :
          square_root_diffusion).initial_value ∧
      ∀ row ∈ srd_instrument_values ⟨"vstoxx", 1, 3, 2, 5, 0, 14, 7, 2, 7⟩,
        ∀ x ∈ row, 0 ≤ x :=
  ⟨by norm_num, srd_paths_nonneg ⟨"vstoxx", 1, 3, 2, 5, 0, 14, 7, 2, 7⟩
    (by norm_num)⟩

/-- C1: two fresh runs with identical seed, identical parameters and
identical time grid produce identical path tensors and identical valuation
outputs — present value, standard error and all Greek estimates. -/
theorem simulation_determinism (a b : valuation_mcs_european_single)
    (h1 : a.underlying.name = b.underlying.name)
    (h2 : a.underlying.initial_value = b.underlying.initial_value)
    (h3 : a.underlying.volatility = b.underlying.volatility)
    (h4 : a.underlying.short_rate = b.underlying.short_rate)
    (h5 : a.underlying.pricing_date = b.underlying.pricing_date)
    (h6 : a.underlying.final_date = b.underlying.final_date)
    (h7 : a.underlying.frequency = b.underlying.frequency)
    (h8 : a.underlying.paths = b.underlying.paths)
    (h9 : a.underlying.seed = b.underlying.seed)
    (hfresh1 : a.underlying.instrument_values = none)
    (hfresh2 : b.underlying.instrument_values = none)
    (h10 : a.name = b.name) (h11 : a.strike = b.strike)
    (h12 : a.maturity = b.maturity) (h13 : a.payoff_func = b.payoff_func) :
    generate_paths a.underlying = generate_paths b.underlying ∧
      gbm_time_grid a.underlying = gbm_time_grid b.underlying ∧
      present_value a = present_value b ∧
      standard_error_sq a = standard_error_sq b ∧
      (∀ step : ℚ,
        (a.delta step).1 = (b.delta step).1 ∧
          (a.gamma step).1 = (b.gamma step).1 ∧
          (a.vega step).1 = (b.vega step).1 ∧
          a.theta.1 = b.theta.1 ∧
          (a.rho step).1 = (b.rho step).1) ∧
      ∀ s1 s2 : square_root_diffusion, s1.name = s2.name →
        s1.initial_value = s2.initial_value → s1.kappa = s2.kappa →
        s1.theta = s2.theta → s1.volatility = s2.volatility →
        s1.pricing_date = s2.pricing_date → s1.final_date = s2.final_date →
        s1.frequency = s2.frequency → s1.paths = s2.paths →
        s1.seed = s2.seed →
        srd_instrument_values s1 = srd_instrument_values s2 := by
  have hsrd : ∀ s1 s2 : square_root_diffusion, s1.name = s2.name →
      s1.initial_value = s2.initial_value → s1.kappa = s2.kappa →
      s1.theta = s2.theta → s1.volatility = s2.volatility →
      s1.pricing_date = s2.pricing_date → s1.final_date = s2.final_date →
      s1.frequency = s2.frequency → s1.paths = s2.paths →
      s1.seed = s2.seed →
      srd_instrument_values s1 = srd_instrument_values s2 := by
    intro s1 s2 g1 g2 g3 g4 g5 g6 g7 g8 g9 g10
    cases s1
    cases s2
    dsimp only at g1 g2 g3 g4 g5 g6 g7 g8 g9 g10
    subst_vars
    rfl
  cases a
  cases b
  dsimp only at h1 h2 h3 h4 h5 h6 h7 h8 h9 hfresh1 hfresh2 h10 h11 h12 h13 ⊢
  rename_i an au ask am apf bn bu bsk bm bpf
  cases au
  cases bu
  dsimp only at h1 h2 h3 h4 h5 h6 h7 h8 h9 hfresh1 hfresh2
  subst_vars
  exact ⟨rfl, rfl, rfl, rfl, fun _ => ⟨rfl, rfl, rfl, rfl, rfl⟩, hsrd⟩

/-- Concrete instantiation of the determinism property: two identically
parameterized fresh valuation objects agree on paths and outputs. -/
theorem simulation_determinism_witness :
    generate_paths
        (⟨"ec", ⟨"g", 100, 2, 1, 0, 14, 7, 2, 1000, none⟩, 110, 14,
          fun k s => max (s - k) 0⟩ :
          valuation_mcs_european_single).underlying =
      generate_paths
        (⟨"ec", ⟨"g", 100, 2, 1, 0, 14, 7, 2, 1000, none⟩, 110, 14,
          fun k s => max (s - k) 0⟩ :
          valuation_mcs_european_single).underlying ∧
      gbm_time_grid
          (⟨"ec", ⟨"g", 100, 2, 1, 0, 14, 7, 2, 1000, none⟩, 110, 14,
            fun k s => max (s - k) 0⟩ :
            valuation_mcs_european_single).underlying =
        gbm_time_grid
          (⟨"ec", ⟨"g", 100, 2, 1, 0, 14, 7, 2, 1000, none⟩, 110, 14,
            fun k s => max (s - k) 0⟩ :
            valuation_mcs_european_single).underlying ∧
      present_value
          (⟨"ec", ⟨"g", 100, 2, 1, 0, 14, 7, 2, 1000, none⟩, 110, 14,
            fun k s => max (s - k) 0⟩ : valuation_mcs_european_single) =
        present_value
          (⟨"ec", ⟨"g", 100, 2, 1, 0, 14, 7, 2, 1000, none⟩, 110, 14,
            fun k s => max (s - k) 0⟩ : valuation_mcs_european_single) ∧
      standard_error_sq
          (⟨"ec", ⟨"g", 100, 2, 1, 0, 14, 7, 2, 1000, none⟩, 110, 14,
            fun k s => max (s - k) 0⟩ : valuation_mcs_european_single) =
        standard_error_sq
          (⟨"ec", ⟨"g", 100, 2, 1, 0, 14, 7, 2, 1000, none⟩, 110, 14,
            fun k s => max (s - k) 0⟩ : valuation_mcs_european_single) ∧
      (∀ step : ℚ,
        ((⟨"ec", ⟨"g", 100, 2, 1, 0, 14, 7, 2, 1000, none⟩, 110, 14,
            fun k s => max (s - k) 0⟩ :
            valuation_mcs_european_single).delta step).1 =
            ((⟨"ec", ⟨"g", 100, 2, 1, 0, 14, 7, 2, 1000, none⟩, 110, 14,
              fun k s => max (s - k) 0⟩ :
              valuation_mcs_european_single).delta step).1 ∧
          ((⟨"ec", ⟨"g", 100, 2, 1, 0, 14, 7, 2, 1000, none⟩, 110, 14,
            fun k s => max (s - k) 0⟩ :
            valuation_mcs_european_single).gamma step).1 =
            ((⟨"ec", ⟨"g", 100, 2, 1, 0, 14, 7, 2, 1000, none⟩, 110, 14,
              fun k s => max (s - k) 0⟩ :
              valuation_mcs_european_single).gamma step).1 ∧
          ((⟨"ec", ⟨"g", 100, 2, 1, 0, 14, 7, 2, 1000, none⟩, 110, 14,
            fun k s => max (s - k) 0⟩ :
            valuation_mcs_european_single).vega step).1 =
            ((⟨"ec", ⟨"g", 100, 2, 1, 0, 14, 7, 2, 1000, none⟩, 110, 14,
              fun k s => max (s - k) 0⟩ :
              valuation_mcs_european_single).vega step).1 ∧
          (⟨"ec", ⟨"g", 100, 2, 1, 0, 14, 7, 2, 1000, none⟩, 110, 14,
            fun k s => max (s - k) 0⟩ :
            valuation_mcs_european_single).theta.1 =
            (⟨"ec", ⟨"g", 100, 2, 1, 0, 14, 7, 2, 1000, none⟩, 110, 14,
              fun k s => max (s - k) 0⟩ :
              valuation_mcs_european_single).theta.1 ∧
          ((⟨"ec", ⟨"g", 100, 2, 1, 0, 14, 7, 2, 1000, none⟩, 110, 14,
            fun k s => max (s - k) 0⟩ :
            valuation_mcs_european_single).rho step).1 =
            ((⟨"ec", ⟨"g", 100, 2, 1, 0, 14, 7, 2, 1000, none⟩, 110, 14,
              fun k s => max (s - k) 0⟩ :
              valuation_mcs_european_single).rho step).1) ∧
      ∀ s1 s2 : square_root_diffusion, s1.name = s2.name →
        s1.initial_value = s2.initial_value → s1.kappa = s2.kappa →
        s1.theta = s2.theta → s1.volatility = s2.volatility →
        s1.pricing_date = s2.pricing_date → s1.final_date = s2.final_date →
        s1.frequency = s2.frequency → s1.paths = s2.paths →
        s1.seed = s2.seed →
        srd_instrument_values s1 = srd_instrument_values s2 :=
  simulation_determinism _ _ rfl rfl rfl rfl rfl rfl rfl rfl rfl rfl rfl rfl
    rfl rfl rfl

/-- C5: every Greek estimator restores every bumped parameter to its
original value before returning: the parameter state of the valuation
object and of its underlying after the call equals the state before it. -/
theorem greek_bumps_restore (v : valuation_mcs_european_single) (step : ℚ) :
    valuation_mcs_european_single.val_params (v.delta step).2 =
        valuation_mcs_european_single.val_params v ∧
      valuation_mcs_european_single.val_params (v.gamma step).2 =
        valuation_mcs_european_single.val_params v ∧
      valuation_mcs_european_single.val_params (v.vega step).2 =
        valuation_mcs_european_single.val_params v ∧
      valuation_mcs_european_single.val_params v.theta.2 =
        valuation_mcs_european_single.val_params v ∧
      valuation_mcs_european_single.val_params (v.rho step).2 =
        valuation_mcs_european_single.val_params v :=
  ⟨rfl, rfl, rfl, rfl, rfl⟩

/-- Concrete instantiation of the Greek bump restoration property. -/
theorem greek_bumps_restore_witness :
    valuation_mcs_european_single.val_params
        ((⟨"ec", ⟨"g", 100, 2, 1, 0, 14, 7, 2, 1000, none⟩, 110, 14,
          fun k s => max (s - k) 0⟩ :
          valuation_mcs_european_single).delta 1).2 =
        valuation_mcs_european_single.val_params
          (⟨"ec", ⟨"g", 100, 2, 1, 0, 14, 7, 2, 1000, none⟩, 110, 14,
            fun k s => max (s - k) 0⟩ : valuation_mcs_european_single) ∧
      valuation_mcs_european_single.val_params
          ((⟨"ec", ⟨"g", 100, 2, 1, 0, 14, 7, 2, 1000, none⟩, 110, 14,
            fun k s => max (s - k) 0⟩ :
            valuation_mcs_european_single).gamma 1).2 =
        valuation_mcs_european_single.val_params
          (⟨"ec", ⟨"g", 100, 2, 1, 0, 14, 7, 2, 1000, none⟩, 110, 14,
            fun k s => max (s - k) 0⟩ : valuation_mcs_european_single) ∧
      valuation_mcs_european_single.val_params
          ((⟨"ec", ⟨"g", 100, 2, 1, 0, 14, 7, 2, 1000, none⟩, 110, 14,
            fun k s => max (s - k) 0⟩ :
            valuation_mcs_european_single).vega 1).2 =
        valuation_mcs_european_single.val_params
          (⟨"ec", ⟨"g", 100, 2, 1, 0, 14, 7, 2, 1000, none⟩, 110, 14,
            fun k s => max (s - k) 0⟩ : valuation_mcs_european_single) ∧
      valuation_mcs_european_single.val_params
          (⟨"ec", ⟨"g", 100, 2, 1, 0, 14, 7, 2, 1000, none⟩, 110, 14,
            fun k s => max (s - k) 0⟩ :
            valuation_mcs_european_single).theta.2 =
        valuation_mcs_european_single.val_params
          (⟨"ec", ⟨"g", 100, 2, 1, 0, 14, 7, 2, 1000, none⟩, 110, 14,
            fun k s => max (s - k) 0⟩ : valuation_mcs_european_single) ∧
      valuation_mcs_european_single.val_params
          ((⟨"ec", ⟨"g", 100, 2, 1, 0, 14, 7, 2, 1000, none⟩, 110, 14,
            fun k s => max (s - k) 0⟩ :
            valuation_mcs_european_single).rho 1).2 =
        valuation_mcs_european_single.val_params
          (⟨"ec", ⟨"g", 100, 2, 1, 0, 14, 7, 2, 1000, none⟩, 110, 14,
            fun k s => max (s - k) 0⟩ : valuation_mcs_european_single) :=
  greek_bumps_restore
    ⟨"ec", ⟨"g", 100, 2, 1, 0, 14, 7, 2, 1000, none⟩, 110, 14,
      fun k s => max (s - k) 0⟩ 1

/-- C10: updating the strike changes only the strike: the underlying risk
factor — its memoized path tensor and its time grid included — is left
unchanged, so subsequent valuation reuses the very same simulated paths. -/
theorem update_strike_frame (v : valuation_mcs_european_single) (k : ℚ) :
    (v.update none none (some k) none).strike = k ∧
      (v.update none none (some k) none).underlying = v.underlying ∧
      instrument_values_of (v.update none none (some k) none).underlying =
        instrument_values_of v.underlying ∧
      gbm_time_grid (v.update none none (some k) none).underlying =
        gbm_time_grid v.underlying ∧
      valuation_mcs_european_single.maturity_value_list
          (v.update none none (some k) none) =
        valuation_mcs_european_single.maturity_value_list v :=
  ⟨rfl, rfl, rfl, rfl, rfl⟩

/-- Concrete instantiation of the strike update frame property. -/
theorem update_strike_frame_witness :
    ((⟨"ec", ⟨"g", 100, 2, 1, 0, 14, 7, 2, 1000, none⟩, 110, 14,
        fun k s => max (s - k) 0⟩ :
        valuation_mcs_european_single).update none none (some 90)
        none).strike = 90 ∧
      ((⟨"ec", ⟨"g", 100, 2, 1, 0, 14, 7, 2, 1000, none⟩, 110, 14,
        fun k s => max (s - k) 0⟩ :
        valuation_mcs_european_single).update none none (some 90)
        none).underlying =
        (⟨"ec", ⟨"g", 100, 2, 1, 0, 14, 7, 2, 1000, none⟩, 110, 14,
          fun k s => max (s - k) 0⟩ :
          valuation_mcs_european_single).underlying ∧
      instrument_values_of
          ((⟨"ec", ⟨"g", 100, 2, 1, 0, 14, 7, 2, 1000, none⟩, 110, 14,
            fun k s => max (s - k) 0⟩ :
            valuation_mcs_european_single).update none none (some 90)
            none).underlying =
        instrument_values_of
          (⟨"ec", ⟨"g", 100, 2, 1, 0, 14, 7, 2, 1000, none⟩, 110, 14,
            fun k s => max (s - k) 0⟩ :
            valuation_mcs_european_single).underlying ∧
      gbm_time_grid
          ((⟨"ec", ⟨"g", 100, 2, 1, 0, 14, 7, 2, 1000, none⟩, 110, 14,
            fun k s => max (s - k) 0⟩ :
            valuation_mcs_european_single).update none none (some 90)
            none).underlying =
        gbm_time_grid
          (⟨"ec", ⟨"g", 100, 2, 1, 0, 14, 7, 2, 1000, none⟩, 110, 14,
            fun k s => max (s - k) 0⟩ :
            valuation_mcs_european_single).underlying ∧
      valuation_mcs_european_single.maturity_value_list
          ((⟨"ec", ⟨"g", 100, 2, 1, 0, 14, 7, 2, 1000, none⟩, 110, 14,
            fun k s => max (s - k) 0⟩ :
            valuation_mcs_european_single).update none none (some 90) none) =
        valuation_mcs_european_single.maturity_value_list
          (⟨"ec", ⟨"g", 100, 2, 1, 0, 14, 7, 2, 1000, none⟩, 110, 14,
            fun k s => max (s - k) 0⟩ : valuation_mcs_european_single) :=
  update_strike_frame
    ⟨"ec", ⟨"g", 100, 2, 1, 0, 14, 7, 2, 1000, none⟩, 110, 14,
      fun k s => max (s - k) 0⟩ 90

theorem mean_map_mul_left (c : ℚ) (f : ℚ → ℚ) (l : List ℚ) :
    mean (l.map fun s => c * f s) = c * mean (l.map f) := by
  unfold mean
  rw [List.sum_map_mul_left, List.length_map, List.length_map,
    mul_div_assoc]

open valuation_mcs_european_single in
/-- C2: the European Monte Carlo present value equals the discount factor
at maturity times the mean across the paths of the payoff applied to the
terminal simulated values, and the accompanying standard error equals the
standard deviation of the discounted per-path payoffs divided by the
square root of the path count. -/
theorem present_value_european (v : valuation_mcs_european_single)
    (hl : (discounted_payoff_list v).length = v.underlying.paths) :
    present_value v =
        discount_factor v.underlying.short_rate (ttm v) *
          mean ((maturity_value_list v).map (v.payoff_func v.strike)) ∧
      Real.sqrt ((standard_error_sq v : ℚ) : ℝ) =
        Real.sqrt ((pvariance (discounted_payoff_list v) : ℚ) : ℝ) /
          Real.sqrt ((v.underlying.paths : ℕ) : ℝ) := by
  constructor
  · unfold present_value discounted_payoff_list
    rw [mean_map_mul_left]
  · unfold standard_error_sq
    rw [← hl]
    push_cast
    rw [Real.sqrt_div (by exact_mod_cast pvariance_nonneg _)]

open valuation_mcs_european_single in
/-- Concrete instantiation of the European valuation formulas on a
two-path, two-date example. -/
theorem present_value_european_witness :
    ((discounted_payoff_list
        (⟨"ec", ⟨"g", 100, 2, 1, 0, 7, 7, 2, 42, none⟩, 110, 7,
          fun k s => max (s - k) 0⟩ :
          valuation_mcs_european_single)).length =
      (⟨"g", 100, 2, 1, 0, 7, 7, 2, 42, none⟩ : gbm_model).paths) ∧
    present_value
        (⟨"ec", ⟨"g", 100, 2, 1, 0, 7, 7, 2, 42, none⟩, 110, 7,
          fun k s => max (s - k) 0⟩ : valuation_mcs_european_single) =
      discount_factor
          (⟨"g", 100, 2, 1, 0, 7, 7, 2, 42, none⟩ : gbm_model).short_rate
          (ttm (⟨"ec", ⟨"g", 100, 2, 1, 0, 7, 7, 2, 42, none⟩, 110, 7,
            fun k s => max (s - k) 0⟩ : valuation_mcs_european_single)) *
        mean ((maturity_value_list
            (⟨"ec", ⟨"g", 100, 2, 1, 0, 7, 7, 2, 42, none⟩, 110, 7,
              fun k s => max (s - k) 0⟩ :
              valuation_mcs_european_single)).map
          ((fun k s => max (s - k) 0) 110)) ∧
    Real.sqrt ((standard_error_sq
          (⟨"ec", ⟨"g", 100, 2, 1, 0, 7, 7, 2, 42, none⟩, 110, 7,
            fun k s => max (s - k) 0⟩ :
            valuation_mcs_european_single) : ℚ) : ℝ) =
      Real.sqrt ((pvariance (discounted_payoff_list
          (⟨"ec", ⟨"g", 100, 2, 1, 0, 7, 7, 2, 42, none⟩, 110, 7,
            fun k s => max (s - k) 0⟩ :
            valuation_mcs_european_single)) : ℚ) : ℝ) /
        Real.sqrt (((⟨"g", 100, 2, 1, 0, 7, 7, 2, 42, none⟩ :
          gbm_model).paths : ℕ) : ℝ) := by
  have hl : (discounted_payoff_list
      (⟨"ec", ⟨"g", 100, 2, 1, 0, 7, 7, 2, 42, none⟩, 110, 7,
        fun k s => max (s - k) 0⟩ :
        valuation_mcs_european_single)).length =
      (⟨"g", 100, 2, 1, 0, 7, 7, 2, 42, none⟩ : gbm_model).paths := by
    rw [discounted_payoff_list, List.length_map]
    rw [maturity_value_list]
    rfl
  exact ⟨hl, present_value_european _ hl⟩

theorem set_shock_seed (m : gbm_model) (t : shock_param) (x : ℚ) :
    (set_shock m t x).seed = m.seed := by
  cases t <;> rfl

theorem shock_factor_seeds (port : portfolio_model) (fname : String)
    (t : shock_param) (x : ℚ) :
    portfolio_seeds (shock_factor port fname t x) = portfolio_seeds port := by
  unfold portfolio_seeds shock_factor
  rw [List.map_map]
  apply List.map_congr_left
  intro q _
  by_cases h : q.1 == fname
  · simp [h, Function.comp, set_shock_seed]
  · simp [h, Function.comp]

/-- C3: for a shockable target parameter with step s, the risk report
revalues the whole portfolio at the parameter's unshocked value minus s, at
the unshocked value, and at the unshocked value plus s, keeping every risk
factor's random seed identical across the three valuations, and returns the
per-position and aggregate value table for each scenario together with the
unshocked benchmark value. -/
theorem get_port_risk_spec (port : portfolio_model) (fname : String)
    (t : shock_param) (step : ℚ) :
    (get_port_risk port fname t step).2 = portfolio_value port ∧
      (get_port_risk port fname t step).1 =
        [shock_base port fname t - step, shock_base port fname t,
          shock_base port fname t + step].map
          (fun x => (x, port_scenario_values (shock_factor port fname t x))) ∧
      ∀ x : ℚ,
        portfolio_seeds (shock_factor port fname t x) =
          portfolio_seeds port ∧
          port_scenario_values (shock_factor port fname t x) =
            (get_values (shock_factor port fname t x),
              portfolio_value (shock_factor port fname t x)) :=
  ⟨rfl, rfl, fun x => ⟨shock_factor_seeds port fname t x, rfl⟩⟩

/-- Concrete instantiation of the risk report contract on a one-position
portfolio. -/
theorem get_port_risk_spec_witness :
    (get_port_risk
        (⟨"pf", [⟨"put", 2, "g", 110, 7, fun k s => max (k - s) 0⟩],
          [("g", ⟨"g", 100, 2, 1, 0, 7, 7, 2, 42, none⟩)]⟩ :
          portfolio_model) "g" shock_param.initial_value 5).2 =
      portfolio_value
        (⟨"pf", [⟨"put", 2, "g", 110, 7, fun k s => max (k - s) 0⟩],
          [("g", ⟨"g", 100, 2, 1, 0, 7, 7, 2, 42, none⟩)]⟩ :
          portfolio_model) ∧
    (get_port_risk
        (⟨"pf", [⟨"put", 2, "g", 110, 7, fun k s => max (k - s) 0⟩],
          [("g", ⟨"g", 100, 2, 1, 0, 7, 7, 2, 42, none⟩)]⟩ :
          portfolio_model) "g" shock_param.initial_value 5).1 =
      [shock_base
          (⟨"pf", [⟨"put", 2, "g", 110, 7, fun k s => max (k - s) 0⟩],
            [("g", ⟨"g", 100, 2, 1, 0, 7, 7, 2, 42, none⟩)]⟩ :
            portfolio_model) "g" shock_param.initial_value - 5,
        shock_base
          (⟨"pf", [⟨"put", 2, "g", 110, 7, fun k s => max (k - s) 0⟩],
            [("g", ⟨"g", 100, 2, 1, 0, 7, 7, 2, 42, none⟩)]⟩ :
            portfolio_model) "g" shock_param.initial_value,
        shock_base
          (⟨"pf", [⟨"put", 2, "g", 110, 7, fun k s => max (k - s) 0⟩],
            [("g", ⟨"g", 100, 2, 1, 0, 7, 7, 2, 42, none⟩)]⟩ :
            portfolio_model) "g" shock_param.initial_value + 5].map
        (fun x => (x, port_scenario_values
          (shock_factor
            (⟨"pf", [⟨"put", 2, "g", 110, 7, fun k s => max (k - s) 0⟩],
              [("g", ⟨"g", 100, 2, 1, 0, 7, 7, 2, 42, none⟩)]⟩ :
              portfolio_model) "g" shock_param.initial_value x))) ∧
    ∀ x : ℚ,
      portfolio_seeds
          (shock_factor
            (⟨"pf", [⟨"put", 2, "g", 110, 7, fun k s => max (k - s) 0⟩],
              [("g", ⟨"g", 100, 2, 1, 0, 7, 7, 2, 42, none⟩)]⟩ :
              portfolio_model) "g" shock_param.initial_value x) =
        portfolio_seeds
          (⟨"pf", [⟨"put", 2, "g", 110, 7, fun k s => max (k - s) 0⟩],
            [("g", ⟨"g", 100, 2, 1, 0, 7, 7, 2, 42, none⟩)]⟩ :
            portfolio_model) ∧
        port_scenario_values
            (shock_factor
              (⟨"pf", [⟨"put", 2, "g", 110, 7, fun k s => max (k - s) 0⟩],
                [("g", ⟨"g", 100, 2, 1, 0, 7, 7, 2, 42, none⟩)]⟩ :
                portfolio_model) "g" shock_param.initial_value x) =
          (get_values
              (shock_factor
                (⟨"pf", [⟨"put", 2, "g", 110, 7, fun k s => max (k - s) 0⟩],
                  [("g", ⟨"g", 100, 2, 1, 0, 7, 7, 2, 42, none⟩)]⟩ :
                  portfolio_model) "g" shock_param.initial_value x),
            portfolio_value
              (shock_factor
                (⟨"pf", [⟨"put", 2, "g", 110, 7, fun k s => max (k - s) 0⟩],
                  [("g", ⟨"g", 100, 2, 1, 0, 7, 7, 2, 42, none⟩)]⟩ :
                  portfolio_model) "g" shock_param.initial_value x)) :=
  get_port_risk_spec _ "g" shock_param.initial_value 5

/-- C6: the portfolio present value equals the quantity-weighted sum of the
per-position present values, and the statistics expose per-position and
aggregate mean and standard error. -/
theorem portfolio_aggregation (port : portfolio_model) :
    get_values port =
        port.positions.map
          (fun p => (p.name, p.quantity, position_value port.risk_factors p)) ∧
      portfolio_value port =
        (port.positions.map
          (fun p => p.quantity * position_value port.risk_factors p)).sum ∧
      (get_statistics port).2.1 = portfolio_value port ∧
      ∀ p ∈ port.positions,
        (p.name, p.quantity, position_value port.risk_factors p,
          position_error_sq port.risk_factors p) ∈ (get_statistics port).1 := by
  refine ⟨rfl, ?_, rfl, ?_⟩
  · unfold portfolio_value get_values
    rw [List.map_map]
    rfl
  · intro p hp
    exact List.mem_map_of_mem _ hp

/-- Concrete instantiation of the portfolio aggregation contract. -/
theorem portfolio_aggregation_witness :
    get_values
        (⟨"pf", [⟨"call", 3, "g", 110, 7, fun k s => max (s - k) 0⟩],
          [("g", ⟨"g", 100, 2, 1, 0, 7, 7, 2, 42, none⟩)]⟩ :
          portfolio_model) =
      (⟨"pf", [⟨"call", 3, "g", 110, 7, fun k s => max (s - k) 0⟩],
        [("g", ⟨"g", 100, 2, 1, 0, 7, 7, 2, 42, none⟩)]⟩ :
        portfolio_model).positions.map
        (fun p => (p.name, p.quantity, position_value
          (⟨"pf", [⟨"call", 3, "g", 110, 7, fun k s => max (s - k) 0⟩],
            [("g", ⟨"g", 100, 2, 1, 0, 7, 7, 2, 42, none⟩)]⟩ :
            portfolio_model).risk_factors p)) ∧
      portfolio_value
          (⟨"pf", [⟨"call", 3, "g", 110, 7, fun k s => max (s - k) 0⟩],
            [("g", ⟨"g", 100, 2, 1, 0, 7, 7, 2, 42, none⟩)]⟩ :
            portfolio_model) =
        ((⟨"pf", [⟨"call", 3, "g", 110, 7, fun k s => max (s - k) 0⟩],
          [("g", ⟨"g", 100, 2, 1, 0, 7, 7, 2, 42, none⟩)]⟩ :
          portfolio_model).positions.map
          (fun p => p.quantity * position_value
            (⟨"pf", [⟨"call", 3, "g", 110, 7, fun k s => max (s - k) 0⟩],
              [("g", ⟨"g", 100, 2, 1, 0, 7, 7, 2, 42, none⟩)]⟩ :
              portfolio_model).risk_factors p)).sum ∧
      (get_statistics
          (⟨"pf", [⟨"call", 3, "g", 110, 7, fun k s => max (s - k) 0⟩],
            [("g", ⟨"g", 100, 2, 1, 0, 7, 7, 2, 42, none⟩)]⟩ :
            portfolio_model)).2.1 =
        portfolio_value
          (⟨"pf", [⟨"call", 3, "g", 110, 7, fun k s => max (s - k) 0⟩],
            [("g", ⟨"g", 100, 2, 1, 0, 7, 7, 2, 42, none⟩)]⟩ :
            portfolio_model) ∧
      ∀ p ∈ (⟨"pf", [⟨"call", 3, "g", 110, 7, fun k s => max (s - k) 0⟩],
          [("g", ⟨"g", 100, 2, 1, 0, 7, 7, 2, 42, none⟩)]⟩ :
          portfolio_model).positions,
        (p.name, p.quantity, position_value
            (⟨"pf", [⟨"call", 3, "g", 110, 7, fun k s => max (s - k) 0⟩],
              [("g", ⟨"g", 100, 2, 1, 0, 7, 7, 2, 42, none⟩)]⟩ :
              portfolio_model).risk_factors p,
          position_error_sq
            (⟨"pf", [⟨"call", 3, "g", 110, 7, fun k s => max (s - k) 0⟩],
              [("g", ⟨"g", 100, 2, 1, 0, 7, 7, 2, 42, none⟩)]⟩ :
              portfolio_model).risk_factors p) ∈
          (get_statistics
            (⟨"pf", [⟨"call", 3, "g", 110, 7, fun k s => max (s - k) 0⟩],
              [("g", ⟨"g", 100, 2, 1, 0, 7, 7, 2, 42, none⟩)]⟩ :
              portfolio_model)).1 :=
  portfolio_aggregation _

end DX
